import Mathlib

/-!
Verification of the NCAA data pipeline (`projects/ncaa`): a shallow embedding
of the caching decorator (`ncaa/infrastructure/decorators.py`), the Casablanca
HTTP client (`ncaa/casablanca_client.py`), the game filters
(`ncaa/game_filters.py`), the gender resolver (`ncaa/gender_resolver.py`) and
the sports-navigation parser (`ncaa/scraper/parser.py`,
`ncaa/scraper/parser_helpers.py`).

Python strings are modelled as `List Char`; Python's `str.lower`, `str.strip`,
`str.rstrip`, slicing and `in`/`endswith`/`rfind` are given explicit
executable counterparts below (ASCII inputs only, which is all the repository
feeds them).
-/

namespace Ncaa

/-- A Python `str`, modelled as its list of characters. -/
abbrev PyStr := List Char

/-- `String.data` of a literal, used to write concrete `PyStr` values. -/
def pyStr (s : String) : PyStr := s.data

/-- Python `str.lower()` (ASCII). -/
def pyLower (s : PyStr) : PyStr := s.map Char.toLower

/-- Python `str.rstrip()`: drop trailing whitespace. -/
def pyRstrip (s : PyStr) : PyStr := (s.reverse.dropWhile Char.isWhitespace).reverse

/-- Python `str.strip()`: drop leading and trailing whitespace. -/
def pyStrip (s : PyStr) : PyStr := pyRstrip (s.dropWhile Char.isWhitespace)

/-- Python `sub in s`: substring containment. -/
def pyContains (s sub : PyStr) : Bool := decide (sub <:+: s)

/-- Python `s.endswith(suffix)`. -/
def pyEndsWith (s suffix : PyStr) : Bool := suffix.isSuffixOf s

/-! ### Data model (`ncaa/models.py`, `ncaa/scraper/models.py`) -/

/-- `Gender` enum (`ncaa/models.py`): MEN/WOMEN/COED/UNSPECIFIED. -/
inductive Gender where
  | men
  | women
  | coed
  | unspecified
  deriving DecidableEq, Repr

/-- The enum's string `.value`: "Men", "Women", "Coed", "Unspecified". -/
def Gender.value : Gender → PyStr
  | .men => pyStr "Men"
  | .women => pyStr "Women"
  | .coed => pyStr "Coed"
  | .unspecified => pyStr "Unspecified"

/-- `Season` enum (`ncaa/models.py`). -/
inductive Season where
  | fall
  | winter
  | spring
  deriving DecidableEq, Repr

/-- `Sport` pydantic model (`ncaa/models.py`): name, season, gender, url. -/
structure Sport where
  name : PyStr
  season : Season
  gender : Gender
  url : Option PyStr
  deriving DecidableEq, Repr

/-! ### Gender resolver (`ncaa/gender_resolver.py`) -/

/-- The `DefaultGenderResolver._defaults` table, in source order. -/
def defaultGenderTable : List (PyStr × Gender) :=
  [ (pyStr "softball", .women)
  , (pyStr "baseball", .men)
  , (pyStr "field hockey", .women)
  , (pyStr "rowing", .women)
  , (pyStr "bowling", .women)
  , (pyStr "beach volleyball", .women)
  , (pyStr "rifle", .coed)
  , (pyStr "skiing", .coed)
  , (pyStr "football", .men)
  , (pyStr "fencing", .coed)
  ]

/-- `DefaultGenderResolver.resolve`: a non-Unspecified text gender wins;
otherwise look up `sport_name.strip().lower()` in the defaults table,
falling back to the (Unspecified) text gender. -/
def resolve (sport_name : PyStr) (text_gender : Gender) : Gender :=
  if text_gender ≠ Gender.unspecified then
    text_gender
  else
    ((defaultGenderTable.lookup (pyLower (pyStrip sport_name))).getD text_gender)

/-! ### Parser helpers (`ncaa/scraper/parser_helpers.py`) -/

/-- `extract_gender`: infer gender from a raw sport name; "women" is checked
before "men" (the latter is a substring of the former). -/
def extract_gender (raw_name : PyStr) : Gender :=
  let lower := pyLower raw_name
  if pyContains lower (pyStr "women") then .women
  else if pyContains lower (pyStr "men") then .men
  else .unspecified

/-- `_strip_suffix`: case-sensitive `text[:-len(suffix)].rstrip()` when
`text.endswith(suffix)`, else `text` unchanged. -/
def strip_suffix (text suffix : PyStr) : PyStr :=
  if pyEndsWith text suffix then
    pyRstrip (text.take (text.length - suffix.length))
  else text

/-- Python `text.rfind(sub)`: index of the rightmost occurrence of `sub` in
`text`, scanning candidate start positions from the right; `none` for -1. -/
def pyRfind (text sub : PyStr) : Option Nat :=
  go text.length
where
  /-- Scan start positions `k, k-1, ..., 0` for an occurrence of `sub`. -/
  go : Nat → Option Nat
    | 0 => if sub.isPrefixOf text then some 0 else none
    | k + 1 =>
      if sub.isPrefixOf (text.drop (k + 1)) then some (k + 1) else go k

/-- `_strip_suffix_case_insensitive`: if the lowercased text ends with the
lowercased suffix, cut at `lower_text.rfind(lower_suffix)` and rstrip. -/
def strip_suffix_case_insensitive (text suffix : PyStr) : PyStr :=
  let lower_text := pyLower text
  let lower_suffix := pyLower suffix
  if pyEndsWith lower_text lower_suffix then
    match pyRfind lower_text lower_suffix with
    | some idx => pyRstrip (text.take idx)
    | none => text
  else text

/-- `normalize_sport_name`: strip `" - Men"` / `" - Women"` (the inferred
gender's `.value`) from the end of the name when the gender is known,
first case-sensitively, then case-insensitively. -/
def normalize_sport_name (raw_name : PyStr) (gender : Gender) : PyStr :=
  if gender = Gender.unspecified then raw_name
  else
    let suffix := pyStr " - " ++ gender.value
    let normalized := strip_suffix raw_name suffix
    if normalized = raw_name then
      strip_suffix_case_insensitive raw_name suffix
    else normalized

/-! ### Sports-navigation parser (`ncaa/scraper/parser.py`)

The HTML layer (BeautifulSoup tag selection) is not modelled: a season block
enters the embedding as the list of its sport links' stripped display texts
with their optional hrefs, exactly what `_extract_sports_data` iterates over.
`urljoin` resolution is not modelled either (URLs are carried through
unchanged); no claim depends on the URL contents. -/

/-- `ParsedSportData` (`ncaa/scraper/parser.py`). -/
structure ParsedSportData where
  name : PyStr
  gender : Gender
  url : Option PyStr
  deriving DecidableEq, Repr

/-- `_parse_sport_tag`: infer gender from the display text, normalize the
name, then resolve the final gender with the default resolver. -/
def parse_sport_tag (raw_name : PyStr) (href : Option PyStr) : ParsedSportData :=
  let gender := extract_gender raw_name
  let name := normalize_sport_name raw_name gender
  let gender := resolve name gender
  { name := name, gender := gender, url := href }

/-- `_extract_sports_data`: parse every tag with a non-empty display text. -/
def extract_sports_data (tags : List (PyStr × Option PyStr)) : List ParsedSportData :=
  tags.filterMap fun (raw_name, href) =>
    if raw_name = [] then none else some (parse_sport_tag raw_name href)

/-- Append an entry under its name key, preserving `defaultdict` insertion
order: extend an existing group in place, or add a new key at the end. -/
def groupInsert (name : PyStr) (e : Gender × Option PyStr) :
    List (PyStr × List (Gender × Option PyStr)) →
    List (PyStr × List (Gender × Option PyStr))
  | [] => [(name, [e])]
  | (k, es) :: rest =>
    if k = name then (k, es ++ [e]) :: rest
    else (k, es) :: groupInsert name e rest

/-- `_group_sports_by_name`: `defaultdict(list)` keyed by canonical name. -/
def group_sports_by_name (sports_data : List ParsedSportData) :
    List (PyStr × List (Gender × Option PyStr)) :=
  sports_data.foldl (fun acc entry => groupInsert entry.name (entry.gender, entry.url) acc) []

/-- `_should_skip_unspecified_entry`: drop an Unspecified entry when its
group also contains a Men or Women entry. -/
def should_skip_unspecified_entry (gender : Gender) (genders_in_group : List Gender) : Bool :=
  gender = Gender.unspecified &&
    (genders_in_group.contains Gender.men || genders_in_group.contains Gender.women)

/-- `_create_sports_from_group`: emit one `Sport` per surviving entry. -/
def create_sports_from_group (name : PyStr) (entries : List (Gender × Option PyStr))
    (season : Season) : List Sport :=
  let genders_in_group := entries.map Prod.fst
  entries.filterMap fun (gender, url) =>
    if should_skip_unspecified_entry gender genders_in_group then none
    else some { name := name, season := season, gender := gender, url := url }

/-- `_parse_season_block` after season-name extraction: parse the tags,
group by canonical name, and emit each group's sports. -/
def parse_season_block (tags : List (PyStr × Option PyStr)) (season : Season) : List Sport :=
  let sports_data := extract_sports_data tags
  let grouped := group_sports_by_name sports_data
  grouped.foldl (fun acc (name, entries) => acc ++ create_sports_from_group name entries season) []

/-! ### Game filters (`ncaa/game_filters.py`) -/

/-- `GameState` enum (`ncaa/api/models.py` / `ncaa/casablanca_models.py`). -/
inductive GameState where
  | pre
  | inGame
  | post
  | scheduled
  | inprogress
  | final
  | postponed
  | cancelled
  deriving DecidableEq, Repr

/-- The fields of the `Game` pydantic model the filters inspect (the many
optional metadata fields — venue, weather, video state, … — are carried by
no claim and elided). -/
structure Game where
  gameState : GameState
  homeFullName : PyStr
  awayFullName : PyStr
  deriving DecidableEq, Repr

/-- `GameWrapper`: wraps a single `Game`. -/
structure GameWrapper where
  game : Game
  deriving DecidableEq, Repr

/-- `ScheduledGameFilter.filter`: keep games in state PRE or SCHEDULED. -/
def scheduledGameFilter (games : List GameWrapper) : List GameWrapper :=
  games.filter fun g =>
    g.game.gameState = GameState.pre ∨ g.game.gameState = GameState.scheduled

/-- `FilterChain.filter`: fold the games through the chain's filters in
order; each filter is its `filter` method, a list transformer. -/
def filterChain (filters : List (List GameWrapper → List GameWrapper))
    (games : List GameWrapper) : List GameWrapper :=
  filters.foldl (fun result f => f result) games

/-! ### Casablanca HTTP client (`ncaa/casablanca_client.py`)

`CasablancaClient.get_schedule` either returns a parsed response or raises
`CasablancaClientError`; it is modelled as an oracle `fetch` from the day
offset `i` (standing for `format_date_offset(i)`, the only date ever
requested in the loop) to `Except` with the error message. The response
payload type is abstract (`α`): the loop never inspects it. -/

/-- The body of `get_upcoming_schedules` over an explicit list of day
offsets, instrumented with the list of offsets actually requested:
each iteration requests day `i`; an `ok` day is appended to the result and
a `CasablancaClientError` day is skipped (`continue`). -/
def upcoming_loop {α : Type} (fetch : Nat → Except PyStr α) :
    List Nat → List α × List Nat
  | [] => ([], [])
  | i :: rest =>
    match fetch i with
    | .ok schedule =>
      let (schedules, calls) := upcoming_loop fetch rest
      (schedule :: schedules, i :: calls)
    | .error _ =>
      let (schedules, calls) := upcoming_loop fetch rest
      (schedules, i :: calls)

/-- `CasablancaClient.get_upcoming_schedules`: loop over
`range(days)`, swallowing each day's client error. Returns
`(collected schedules, requested day offsets)`. -/
def get_upcoming_schedules {α : Type} (fetch : Nat → Except PyStr α) (days : Nat) :
    List α × List Nat :=
  upcoming_loop fetch (List.range days)

/-! ### Caching decorator (`ncaa/infrastructure/decorators.py`)

`CachedCasablancaClient` holds a dict from cache key to
`(model_dump dict, datetime.now().timestamp())` plus a TTL. The dict is an
insertion-ordered association list with unique keys (`dictGet`/`dictSet`/
`dictErase` below); timestamps and the TTL are integers (the code compares
real-valued epoch seconds — only their ordering matters here). The wall
clock is passed in explicitly as `now`. The response payload is abstract
(`α`): `model_dump` / model reconstruction round-trip a response, and the
dump of a `ScoreboardResponse`/`ScheduleResponse` is never the empty dict
(both models always carry at least the `games` key), so the decorator's
truthiness test `if cached:` is exactly a `some`-test. Each endpoint
returns `(value, state, transport_called)` where the flag records whether
the wrapped client was invoked. -/

/-- Python `d[k]` presence + read: first (only) binding of `k`. -/
def dictGet {β : Type} (k : PyStr) : List (PyStr × β) → Option β
  | [] => none
  | (k', v) :: rest => if k' = k then some v else dictGet k rest

/-- Python `d[k] = v`: overwrite in place, or append a new key at the end. -/
def dictSet {β : Type} (k : PyStr) (v : β) : List (PyStr × β) → List (PyStr × β)
  | [] => [(k, v)]
  | (k', v') :: rest =>
    if k' = k then (k, v) :: rest else (k', v') :: dictSet k v rest

/-- Python `del d[k]`: remove the binding of `k`. -/
def dictErase {β : Type} (k : PyStr) : List (PyStr × β) → List (PyStr × β)
  | [] => []
  | (k', v') :: rest =>
    if k' = k then rest else (k', v') :: dictErase k rest

/-- The decorator's mutable state: `_cache` and `_cache_duration`. -/
structure CacheState (α : Type) where
  cache : List (PyStr × (α × Int))
  cache_duration : Int

/-- `_get_cache_key`: `f"{endpoint_type}_{'_'.join(str(arg) for arg in args)}"`. -/
def get_cache_key (endpoint_type : PyStr) (args : List PyStr) : PyStr :=
  endpoint_type ++ pyStr "_" ++ List.intercalate (pyStr "_") args

/-- `_get_cached`: return the entry when it is younger than the TTL;
lazily evict (delete) a stale entry; miss otherwise. -/
def get_cached {α : Type} (st : CacheState α) (cache_key : PyStr) (now : Int) :
    Option α × CacheState α :=
  match dictGet cache_key st.cache with
  | some (data, timestamp) =>
    if now - timestamp < st.cache_duration then (some data, st)
    else (none, { st with cache := dictErase cache_key st.cache })
  | none => (none, st)

/-- `_set_cache`: store `(data, now)` under the key. -/
def set_cache {α : Type} (st : CacheState α) (cache_key : PyStr) (data : α) (now : Int) :
    CacheState α :=
  { st with cache := dictSet cache_key (data, now) st.cache }

/-- `CachedCasablancaClient.get_scoreboard`: serve a fresh cached value, or
call through (`client` is the wrapped client's `get_scoreboard`), store the
result and return it. -/
def cached_get_scoreboard {α : Type} (client : PyStr → PyStr → PyStr → α)
    (st : CacheState α) (gender division date : PyStr) (now : Int) :
    α × CacheState α × Bool :=
  let cache_key := get_cache_key (pyStr "scoreboard") [gender, division, date]
  match get_cached st cache_key now with
  | (some cached, st') => (cached, st', false)
  | (none, st') =>
    let result := client gender division date
    (result, set_cache st' cache_key result now, true)

/-- `CachedCasablancaClient.get_schedule`: same shape as `get_scoreboard`
with the "schedule" endpoint kind. -/
def cached_get_schedule {α : Type} (client : PyStr → PyStr → PyStr → α)
    (st : CacheState α) (sport division date : PyStr) (now : Int) :
    α × CacheState α × Bool :=
  let cache_key := get_cache_key (pyStr "schedule") [sport, division, date]
  match get_cached st cache_key now with
  | (some cached, st') => (cached, st', false)
  | (none, st') =>
    let result := client sport division date
    (result, set_cache st' cache_key result now, true)

/-- `CachedCasablancaClient.get_todays_scoreboard`: plain delegation to the
wrapped client; the state is untouched and the transport flag is true. -/
def cached_get_todays_scoreboard {α : Type} (client : PyStr → PyStr → α)
    (st : CacheState α) (gender division : PyStr) : α × CacheState α × Bool :=
  (client gender division, st, true)

/-- `CachedCasablancaClient.get_todays_schedule`: plain delegation. -/
def cached_get_todays_schedule {α : Type} (client : PyStr → PyStr → α)
    (st : CacheState α) (sport division : PyStr) : α × CacheState α × Bool :=
  (client sport division, st, true)

/-- `CachedCasablancaClient.get_upcoming_schedules`: plain delegation. -/
def cached_get_upcoming_schedules {α : Type} (client : PyStr → PyStr → Nat → List α)
    (st : CacheState α) (sport division : PyStr) (days : Nat) :
    List α × CacheState α × Bool :=
  (client sport division days, st, true)

/-- `CachedCasablancaClient.set_cache_duration`. -/
def set_cache_duration {α : Type} (st : CacheState α) (seconds : Int) : CacheState α :=
  { st with cache_duration := seconds }

/-- `CachedCasablancaClient.clear_cache` (the decorator's own map; the
forwarded `clear_cache` of the wrapped client is stateless here). -/
def cached_clear_cache {α : Type} (st : CacheState α) : CacheState α :=
  { st with cache := [] }

end Ncaa

namespace Ncaa

example : resolve (pyStr "Softball") .unspecified = .women := by decide
example : resolve (pyStr "Basketball") .men = .men := by decide
example : resolve (pyStr "Cricket") .unspecified = .unspecified := by decide
example : extract_gender (pyStr "Soccer - Men") = .men := by decide
example : extract_gender (pyStr "Soccer - Women") = .women := by decide
example : extract_gender (pyStr "Soccer") = .unspecified := by decide
example : normalize_sport_name (pyStr "Soccer - Men") .men = pyStr "Soccer" := by decide
example : normalize_sport_name (pyStr "Soccer - WOMEN") .women = pyStr "Soccer" := by decide
example : normalize_sport_name (pyStr "Softball") .unspecified = pyStr "Softball" := by decide

example :
    parse_season_block [(pyStr "Soccer - Men", none), (pyStr "Soccer - Women", none)] .fall =
      [ { name := pyStr "Soccer", season := .fall, gender := .men, url := none }
      , { name := pyStr "Soccer", season := .fall, gender := .women, url := none } ] := by
  decide

example :
    parse_season_block [(pyStr "Football", none)] .fall =
      [ { name := pyStr "Football", season := .fall, gender := .men, url := none } ] := by
  decide

example :
    parse_season_block [(pyStr "Soccer", none), (pyStr "Soccer - Men", none), (pyStr "Soccer - Women", none)] .fall =
      [ { name := pyStr "Soccer", season := .fall, gender := .men, url := none }
      , { name := pyStr "Soccer", season := .fall, gender := .women, url := none } ] := by
  decide

/-! ### Supporting lemmas -/

/-- The upcoming-schedules loop requests exactly the given day offsets in
order, and collects exactly the `ok` days' responses in order. -/
theorem upcoming_loop_eq {α : Type} (fetch : Nat → Except PyStr α) (l : List Nat) :
    upcoming_loop fetch l = (l.filterMap fun i => (fetch i).toOption, l) := by
  induction l with
  | nil => rfl
  | cons i rest ih =>
    cases h : fetch i <;>
      simp [upcoming_loop, h, ih, List.filterMap_cons, Except.toOption]

/-- Reading back the key just written. -/
theorem dictGet_dictSet_self {β : Type} (k : PyStr) (v : β) (c : List (PyStr × β)) :
    dictGet k (dictSet k v c) = some v := by
  induction c with
  | nil => simp [dictGet, dictSet]
  | cons p rest ih =>
    by_cases h : p.1 = k <;> simp [dictGet, dictSet, h, ih]

end Ncaa

namespace Ncaa

/-! ### Claims -/

/-- Claim C5: `FilterChain.filter` folds left over its filter list: the
empty chain is the identity on the game list, and the chain `[A, B]`
computes `B.filter (A.filter games))`. -/
theorem C5_filter_chain_foldl (A B : List GameWrapper → List GameWrapper)
    (games : List GameWrapper) :
    filterChain [] games = games ∧ filterChain [A, B] games = B (A games) :=
  ⟨rfl, rfl⟩

/-- Claim C6: `ScheduledGameFilter.filter` keeps exactly the games whose
state is PRE or SCHEDULED, preserving input order (the output is a sublist
of the input); POSTPONED and CANCELLED games are excluded. -/
theorem C6_scheduled_filter_characterization (games : List GameWrapper) :
    (scheduledGameFilter games).Sublist games ∧
    (∀ g, g ∈ scheduledGameFilter games ↔
      g ∈ games ∧ (g.game.gameState = GameState.pre ∨ g.game.gameState = GameState.scheduled)) ∧
    (∀ g ∈ games, g.game.gameState = GameState.postponed ∨ g.game.gameState = GameState.cancelled →
      g ∉ scheduledGameFilter games) := by
  refine ⟨List.filter_sublist _, fun g => ?_, fun g _ hstate hmem => ?_⟩
  · simp [scheduledGameFilter, List.mem_filter]
  · have h := (List.mem_filter.mp hmem).2
    simp only [decide_eq_true_eq] at h
    rcases hstate with h' | h' <;> rcases h with h'' | h'' <;> simp [h'] at h''

/-- Witness for C6 at a concrete input: a postponed game present in the
input list is excluded from the scheduled filter's output. -/
theorem C6_scheduled_filter_witness :
    (⟨⟨GameState.postponed, pyStr "Duke", pyStr "UNC"⟩⟩ : GameWrapper) ∉
      scheduledGameFilter
        [ ⟨⟨GameState.pre, pyStr "Army", pyStr "Navy"⟩⟩
        , ⟨⟨GameState.postponed, pyStr "Duke", pyStr "UNC"⟩⟩ ] :=
  (C6_scheduled_filter_characterization
      [ ⟨⟨GameState.pre, pyStr "Army", pyStr "Navy"⟩⟩
      , ⟨⟨GameState.postponed, pyStr "Duke", pyStr "UNC"⟩⟩ ]).2.2
    ⟨⟨GameState.postponed, pyStr "Duke", pyStr "UNC"⟩⟩ (by decide) (Or.inl rfl)

/-- Claim C10: the cache key joins the endpoint kind and the arguments with
single underscores, which is not injective: a sport name that itself
contains an underscore collides with a shifted (sport, division) split, and
a response cached under one request is then served, without any transport
call, for the other. -/
theorem C10_cache_key_collision :
    get_cache_key (pyStr "schedule") [pyStr "ice_hockey", pyStr "d1", pyStr "2024/11/01"] =
      get_cache_key (pyStr "schedule") [pyStr "ice", pyStr "hockey_d1", pyStr "2024/11/01"] ∧
    [pyStr "ice_hockey", pyStr "d1", pyStr "2024/11/01"] ≠
      [pyStr "ice", pyStr "hockey_d1", pyStr "2024/11/01"] ∧
    (cached_get_schedule (fun _ _ _ => (1 : Nat))
        (cached_get_schedule (fun _ _ _ => (0 : Nat)) { cache := [], cache_duration := 300 }
          (pyStr "ice_hockey") (pyStr "d1") (pyStr "2024/11/01") 0).2.1
        (pyStr "ice") (pyStr "hockey_d1") (pyStr "2024/11/01") 10).1 = 0 ∧
    (cached_get_schedule (fun _ _ _ => (1 : Nat))
        (cached_get_schedule (fun _ _ _ => (0 : Nat)) { cache := [], cache_duration := 300 }
          (pyStr "ice_hockey") (pyStr "d1") (pyStr "2024/11/01") 0).2.1
        (pyStr "ice") (pyStr "hockey_d1") (pyStr "2024/11/01") 10).2.2 = false := by
  refine ⟨by decide, by decide, by decide, by decide⟩

/-- Claim C3: the decorator's `get_todays_scoreboard`, `get_todays_schedule`
and `get_upcoming_schedules` delegate to the wrapped client on every call
(transport flag true), never read the cache (the value is independent of
the prior cache state), and leave the cache state unchanged. -/
theorem C3_today_and_upcoming_bypass_cache {α : Type}
    (clientScoreboard clientSchedule : PyStr → PyStr → α)
    (clientUpcoming : PyStr → PyStr → Nat → List α)
    (st st' : CacheState α) (gender sport division : PyStr) (days : Nat) :
    (cached_get_todays_scoreboard clientScoreboard st gender division =
      (clientScoreboard gender division, st, true)) ∧
    (cached_get_todays_schedule clientSchedule st sport division =
      (clientSchedule sport division, st, true)) ∧
    (cached_get_upcoming_schedules clientUpcoming st sport division days =
      (clientUpcoming sport division days, st, true)) ∧
    ((cached_get_todays_scoreboard clientScoreboard st gender division).1 =
      (cached_get_todays_scoreboard clientScoreboard st' gender division).1) ∧
    ((cached_get_todays_schedule clientSchedule st sport division).1 =
      (cached_get_todays_schedule clientSchedule st' sport division).1) ∧
    ((cached_get_upcoming_schedules clientUpcoming st sport division days).1 =
      (cached_get_upcoming_schedules clientUpcoming st' sport division days).1) :=
  ⟨rfl, rfl, rfl, rfl, rfl, rfl⟩

/-- Claim C2: `get_upcoming_schedules(sport, division, days)` requests one
schedule per day offset `0 .. days-1` in order; a day failing with
`CasablancaClientError` is swallowed and omitted, so the result is exactly
the successful days' responses in day order (and with 3 days of which day
offset 1 fails, a 2-element list of days 0 and 2). -/
theorem C2_upcoming_schedules_swallow_errors {α : Type}
    (fetch : Nat → Except PyStr α) (days : Nat) :
    (get_upcoming_schedules fetch days).2 = List.range days ∧
    (get_upcoming_schedules fetch days).1 =
      (List.range days).filterMap (fun i => (fetch i).toOption) ∧
    (get_upcoming_schedules
        (fun i => if i = 1 then Except.error (pyStr "Error fetching") else Except.ok i) 3).1 =
      [0, 2] := by
  refine ⟨?_, ?_, by decide⟩ <;>
    simp [get_upcoming_schedules, upcoming_loop_eq]

/-- The lookup/store flow both cached endpoints reduce to, with the cache
key and the transport's would-be results made explicit (`r1`, `r2`: what
the wrapped client returns if invoked at the first and second call). -/
def cached_call {α : Type} (key : PyStr) (result : α) (st : CacheState α) (now : Int) :
    α × CacheState α × Bool :=
  match get_cached st key now with
  | (some cached, st') => (cached, st', false)
  | (none, st') => (result, set_cache st' key result now, true)

/-- `get_scoreboard` is `cached_call` at the "scoreboard" key. -/
theorem cached_get_scoreboard_eq_cached_call {α : Type}
    (client : PyStr → PyStr → PyStr → α) (st : CacheState α)
    (gender division date : PyStr) (now : Int) :
    cached_get_scoreboard client st gender division date now =
      cached_call (get_cache_key (pyStr "scoreboard") [gender, division, date])
        (client gender division date) st now := rfl

/-- `get_schedule` is `cached_call` at the "schedule" key. -/
theorem cached_get_schedule_eq_cached_call {α : Type}
    (client : PyStr → PyStr → PyStr → α) (st : CacheState α)
    (sport division date : PyStr) (now : Int) :
    cached_get_schedule client st sport division date now =
      cached_call (get_cache_key (pyStr "schedule") [sport, division, date])
        (client sport division date) st now := rfl

/-- Starting with no entry under `key`, the first call goes to the
transport and stores `(r1, t1)`; a second call at `t2` within the TTL
serves the stored value without transport and leaves the state unchanged;
a second call at or past the TTL drops the stale entry, goes to the
transport again and stores `(r2, t2)`. -/
theorem cached_call_flow {α : Type} (key : PyStr) (r1 r2 : α) (st0 : CacheState α)
    (t1 t2 : Int) (h0 : dictGet key st0.cache = none) :
    let first := cached_call key r1 st0 t1
    let second := cached_call key r2 first.2.1 t2
    (first.2.2 = true ∧ first.1 = r1 ∧
      dictGet key first.2.1.cache = some (r1, t1)) ∧
    (t2 - t1 < st0.cache_duration →
      second.1 = r1 ∧ second.2.2 = false ∧ second.2.1 = first.2.1) ∧
    (st0.cache_duration ≤ t2 - t1 →
      second.2.2 = true ∧ second.1 = r2 ∧
      dictGet key second.2.1.cache = some (r2, t2)) := by
  intro first second
  have hfirst : first = (r1, set_cache st0 key r1 t1, true) := by
    simp only [first, cached_call, get_cached, h0]
  have hlook : dictGet key first.2.1.cache = some (r1, t1) := by
    rw [hfirst]
    exact dictGet_dictSet_self key _ st0.cache
  have hdur : first.2.1.cache_duration = st0.cache_duration := by rw [hfirst]; rfl
  refine ⟨⟨by rw [hfirst], by rw [hfirst], hlook⟩, ?_, ?_⟩
  · intro hfresh
    have h2 : second = (r1, first.2.1, false) := by
      simp only [second, cached_call, get_cached, hlook, hdur, if_pos hfresh]
    exact ⟨by rw [h2], by rw [h2], by rw [h2]⟩
  · intro hstale
    have hcond : ¬ (t2 - t1 < first.2.1.cache_duration) := by rw [hdur]; omega
    have h2 : second = (r2,
        set_cache { first.2.1 with cache := dictErase key first.2.1.cache } key r2 t2,
        true) := by
      simp only [second, cached_call, get_cached, hlook, if_neg hcond]
    refine ⟨by rw [h2], by rw [h2], ?_⟩
    rw [h2]
    exact dictGet_dictSet_self ..

/-- Claim C1: for both `get_scoreboard` and `get_schedule`, starting from a
state with no entry for the key, the first call goes to the transport and
stores `(result, t1)`; a second identical call at `t2` with
`t2 - t1 < ttl` returns the stored value without calling the wrapped
client (one transport call across both invocations), while a second call
with `t2 - t1 ≥ ttl` drops the stale entry, calls the wrapped client again
(two transport calls total) and stores the fresh result under the new
timestamp `t2`. -/
theorem C1_cache_hit_and_expiry {α : Type}
    (client : PyStr → PyStr → PyStr → α) (stSb stSch : CacheState α)
    (gender sport division date : PyStr) (t1 t2 : Int)
    (hSb : dictGet (get_cache_key (pyStr "scoreboard") [gender, division, date])
      stSb.cache = none)
    (hSch : dictGet (get_cache_key (pyStr "schedule") [sport, division, date])
      stSch.cache = none) :
    (let key := get_cache_key (pyStr "scoreboard") [gender, division, date]
     let first := cached_get_scoreboard client stSb gender division date t1
     let second := cached_get_scoreboard client first.2.1 gender division date t2
     (first.2.2 = true ∧ first.1 = client gender division date ∧
       dictGet key first.2.1.cache = some (client gender division date, t1)) ∧
     (t2 - t1 < stSb.cache_duration →
       second.1 = client gender division date ∧ second.2.2 = false ∧
       second.2.1 = first.2.1) ∧
     (stSb.cache_duration ≤ t2 - t1 →
       second.2.2 = true ∧ second.1 = client gender division date ∧
       dictGet key second.2.1.cache = some (client gender division date, t2))) ∧
    (let key := get_cache_key (pyStr "schedule") [sport, division, date]
     let first := cached_get_schedule client stSch sport division date t1
     let second := cached_get_schedule client first.2.1 sport division date t2
     (first.2.2 = true ∧ first.1 = client sport division date ∧
       dictGet key first.2.1.cache = some (client sport division date, t1)) ∧
     (t2 - t1 < stSch.cache_duration →
       second.1 = client sport division date ∧ second.2.2 = false ∧
       second.2.1 = first.2.1) ∧
     (stSch.cache_duration ≤ t2 - t1 →
       second.2.2 = true ∧ second.1 = client sport division date ∧
       dictGet key second.2.1.cache = some (client sport division date, t2))) :=
  ⟨cached_call_flow _ (client gender division date) (client gender division date)
      stSb t1 t2 hSb,
   cached_call_flow _ (client sport division date) (client sport division date)
      stSch t1 t2 hSch⟩

/-- Witness for C1: concrete two-call runs (`ttl = 300`, first call at time
0, second at time 100) on both endpoints, each second call served from the
cache without a transport call. -/
theorem C1_cache_hit_witness :
    (cached_get_scoreboard (fun _ _ _ => (7 : Nat))
      (cached_get_scoreboard (fun _ _ _ => (7 : Nat)) { cache := [], cache_duration := 300 }
        (pyStr "men") (pyStr "d1") (pyStr "2024/11/01") 0).2.1
      (pyStr "men") (pyStr "d1") (pyStr "2024/11/01") 100).2.2 = false ∧
    (cached_get_schedule (fun _ _ _ => (9 : Nat))
      (cached_get_schedule (fun _ _ _ => (9 : Nat)) { cache := [], cache_duration := 300 }
        (pyStr "soccer") (pyStr "d1") (pyStr "2024/11/01") 0).2.1
      (pyStr "soccer") (pyStr "d1") (pyStr "2024/11/01") 100).2.2 = false := by
  have hsb := C1_cache_hit_and_expiry (fun _ _ _ => (7 : Nat))
    { cache := [], cache_duration := 300 } { cache := [], cache_duration := 300 }
    (pyStr "men") (pyStr "soccer") (pyStr "d1") (pyStr "2024/11/01")
    0 100 (by decide) (by decide)
  have hsch := C1_cache_hit_and_expiry (fun _ _ _ => (9 : Nat))
    { cache := [], cache_duration := 300 } { cache := [], cache_duration := 300 }
    (pyStr "men") (pyStr "soccer") (pyStr "d1") (pyStr "2024/11/01")
    0 100 (by decide) (by decide)
  exact ⟨(hsb.1.2.1 (by decide)).2.1, (hsch.2.2.1 (by decide)).2.1⟩

/-- Claim C7 fails on the code: `_get_cached` judges freshness against the
duration in force at lookup time, so `set_cache_duration` does change
whether an entry stored earlier is returned. Concretely: an entry stored at
time 0 under ttl 300 is served at time 100; after `set_cache_duration 10`
the very same lookup at time 100 misses (and the entry is evicted). -/
theorem C7_set_cache_duration_counterexample :
    (get_cached { cache := [(pyStr "k", ((42 : Nat), 0))], cache_duration := 300 }
      (pyStr "k") 100).1 = some 42 ∧
    (get_cached (set_cache_duration
        { cache := [(pyStr "k", ((42 : Nat), 0))], cache_duration := 300 } 10)
      (pyStr "k") 100).1 = none := by
  exact ⟨by decide, by decide⟩

/-- Claim C7 (amended): `set_cache_duration(seconds)` leaves the stored
entries and their insertion timestamps unchanged and replaces the TTL used
by every subsequent lookup, so a pre-existing entry is served on a later
lookup exactly when `now - stored_at < seconds` judged against the new
duration. -/
theorem C7_set_cache_duration_semantics {α : Type} (st : CacheState α)
    (seconds : Int) (key : PyStr) (now : Int) (data : α) (timestamp : Int)
    (h : dictGet key st.cache = some (data, timestamp)) :
    (set_cache_duration st seconds).cache = st.cache ∧
    (set_cache_duration st seconds).cache_duration = seconds ∧
    (get_cached (set_cache_duration st seconds) key now).1 =
      (if now - timestamp < seconds then some data else none) := by
  refine ⟨rfl, rfl, ?_⟩
  by_cases hc : now - timestamp < seconds <;>
    simp [get_cached, set_cache_duration, h, hc]

/-- Witness for C7's amended theorem, at the counterexample's input: after
`set_cache_duration 10`, the entry stored at time 0 misses at time 100. -/
theorem C7_set_cache_duration_witness :
    (get_cached (set_cache_duration
        { cache := [(pyStr "k", ((42 : Nat), 0))], cache_duration := 300 } 10)
      (pyStr "k") 100).1 = (if (100 : Int) - 0 < 10 then some 42 else none) :=
  (C7_set_cache_duration_semantics
    { cache := [(pyStr "k", ((42 : Nat), 0))], cache_duration := 300 }
    10 (pyStr "k") 100 42 0 (by decide)).2.2

/-- Claim C4: `DefaultGenderResolver.resolve` returns a non-Unspecified
text gender unchanged; for an Unspecified text gender it returns the
defaults-table entry of `sport_name.strip().lower()` when the table has
one, else Unspecified; in particular Softball defaults to Women, a Men
text gender wins for Basketball, and unknown Cricket stays Unspecified. -/
theorem C4_default_gender_resolver (sport_name : PyStr) (text_gender : Gender) :
    (text_gender ≠ Gender.unspecified → resolve sport_name text_gender = text_gender) ∧
    (text_gender = Gender.unspecified →
      (pyLower (pyStrip sport_name), resolve sport_name text_gender) ∈ defaultGenderTable ∨
        (resolve sport_name text_gender = Gender.unspecified ∧
          ∀ gen, (pyLower (pyStrip sport_name), gen) ∉ defaultGenderTable)) ∧
    resolve (pyStr "Softball") .unspecified = .women ∧
    resolve (pyStr "Basketball") .men = .men ∧
    resolve (pyStr "Cricket") .unspecified = .unspecified := by
  refine ⟨fun h => by simp [resolve, h], fun h => ?_, by decide, by decide, by decide⟩
  subst h
  rcases hl : defaultGenderTable.lookup (pyLower (pyStrip sport_name)) with _ | gen
  · refine Or.inr ⟨by simp [resolve, hl], fun gen hmem => ?_⟩
    have := List.lookup_eq_none_iff.mp hl _ hmem
    simp at this
  · left
    have hres : resolve sport_name Gender.unspecified = gen := by simp [resolve, hl]
    rw [hres]
    obtain ⟨l₁, l₂, heq, -⟩ := List.lookup_eq_some_iff.mp hl
    rw [heq]
    simp

/-- `_should_skip_unspecified_entry` holds exactly for an Unspecified entry
with a Men or Women sibling in its group. -/
theorem should_skip_iff (g : Gender) (gs : List Gender) :
    should_skip_unspecified_entry g gs = true ↔
      (g = Gender.unspecified ∧ (Gender.men ∈ gs ∨ Gender.women ∈ gs)) := by
  simp [should_skip_unspecified_entry, List.contains_iff_exists_mem_beq]

/-- When no entry is skipped, `_create_sports_from_group`'s loop emits one
`Sport` per entry. -/
theorem filterMap_skip_eq_map (name : PyStr) (season : Season)
    (gs : List Gender) (h : ∀ g, should_skip_unspecified_entry g gs = false)
    (l : List (Gender × Option PyStr)) :
    (l.filterMap fun (gender, url) =>
        if should_skip_unspecified_entry gender gs then none
        else some ({ name := name, season := season, gender := gender, url := url } : Sport)) =
      l.map fun (gender, url) =>
        ({ name := name, season := season, gender := gender, url := url } : Sport) := by
  induction l with
  | nil => rfl
  | cons p rest ih =>
    rcases p with ⟨g, u⟩
    simp [List.filterMap_cons, h g, ih]

/-- Lowercasing preserves length. -/
theorem pyLower_length (l : PyStr) : (pyLower l).length = l.length :=
  List.length_map l Char.toLower

/-- `rstrip` never lengthens a string. -/
theorem pyRstrip_length_le (l : PyStr) : (pyRstrip l).length ≤ l.length := by
  have h := (List.dropWhile_suffix (l := l.reverse) Char.isWhitespace).length_le
  simpa [pyRstrip] using h

/-- An exact (case-sensitive) suffix is still a suffix after lowercasing. -/
theorem pyEndsWith_pyLower {text suffix : PyStr} (h : pyEndsWith text suffix = true) :
    pyEndsWith (pyLower text) (pyLower suffix) = true := by
  rw [pyEndsWith, List.isSuffixOf_iff_suffix] at h ⊢
  exact h.map Char.toLower

/-- `text.rfind(sub)` of a non-empty terminal substring is its start
position `text.length - sub.length`: the scan from the right hits the
suffix occurrence first, since no occurrence can start later. -/
theorem pyRfind_of_suffix {text sub : PyStr} (hne : sub ≠ []) (hsuf : sub <:+ text) :
    pyRfind text sub = some (text.length - sub.length) := by
  have hm : sub.length ≤ text.length := hsuf.length_le
  have hposm : 0 < sub.length := List.length_pos.mpr hne
  have hdrop : text.drop (text.length - sub.length) = sub :=
    (List.suffix_iff_eq_drop.mp hsuf).symm
  have hpred : sub.isPrefixOf (text.drop (text.length - sub.length)) = true := by
    rw [hdrop]
    exact List.isPrefixOf_iff_prefix.mpr (List.prefix_refl sub)
  have hfail : ∀ j, text.length - sub.length < j → sub.isPrefixOf (text.drop j) = false := by
    intro j hj
    rw [Bool.eq_false_iff]
    intro hpre
    have hlen := (List.isPrefixOf_iff_prefix.mp hpre).length_le
    rw [List.length_drop] at hlen
    omega
  have hgo : ∀ k, text.length - sub.length ≤ k →
      pyRfind.go text sub k = some (text.length - sub.length) := by
    intro k
    induction k with
    | zero =>
      intro hk
      have h0 : text.length - sub.length = 0 := by omega
      rw [h0] at hpred
      simp only [List.drop_zero] at hpred
      simp [pyRfind.go, hpred, h0]
    | succ k ih =>
      intro hk
      rcases Nat.eq_or_lt_of_le hk with heq | hlt
      · rw [heq] at hpred
        simp [pyRfind.go, hpred, heq]
      · have hf := hfail (k + 1) hlt
        simp only [pyRfind.go, hf]
        simp only [Bool.false_eq_true, if_false]
        exact ih (by omega)
  simpa [pyRfind] using hgo text.length (by omega)

/-- `_strip_suffix` on an exact terminal match cuts the suffix and rstrips. -/
theorem strip_suffix_of_endsWith {text suffix : PyStr}
    (h : pyEndsWith text suffix = true) :
    strip_suffix text suffix = pyRstrip (text.take (text.length - suffix.length)) := by
  simp [strip_suffix, h]

/-- `_strip_suffix` without an exact terminal match is the identity. -/
theorem strip_suffix_of_not_endsWith {text suffix : PyStr}
    (h : pyEndsWith text suffix = false) :
    strip_suffix text suffix = text := by
  simp [strip_suffix, h]

/-- `_strip_suffix` on an exact terminal match of a non-empty suffix makes
the string strictly shorter, hence changes it. -/
theorem strip_suffix_ne {text suffix : PyStr} (hne : suffix ≠ [])
    (h : pyEndsWith text suffix = true) :
    strip_suffix text suffix ≠ text := by
  rw [strip_suffix_of_endsWith h]
  intro heq
  have hm : suffix.length ≤ text.length :=
    (List.isSuffixOf_iff_suffix.mp h).length_le
  have hposm : 0 < suffix.length := List.length_pos.mpr hne
  have h1 := pyRstrip_length_le (text.take (text.length - suffix.length))
  rw [List.length_take] at h1
  have h2 := congrArg List.length heq
  omega

/-- `_strip_suffix_case_insensitive` when the lowercased text ends with the
lowercased (non-empty) suffix: `rfind` locates the terminal occurrence, so
the result cuts the suffix off the original text and rstrips. -/
theorem strip_ci_of_endsWith {text suffix : PyStr} (hne : suffix ≠ [])
    (h : pyEndsWith (pyLower text) (pyLower suffix) = true) :
    strip_suffix_case_insensitive text suffix =
      pyRstrip (text.take (text.length - suffix.length)) := by
  have hsuf : pyLower suffix <:+ pyLower text := List.isSuffixOf_iff_suffix.mp h
  have hne' : pyLower suffix ≠ [] := by
    simp only [pyLower, ne_eq, List.map_eq_nil_iff]
    exact hne
  have hfind := pyRfind_of_suffix hne' hsuf
  rw [pyLower_length, pyLower_length] at hfind
  simp only [strip_suffix_case_insensitive, pyEndsWith] at *
  rw [if_pos h, hfind]

/-- `_strip_suffix_case_insensitive` without a lowercased terminal match is
the identity. -/
theorem strip_ci_of_not_endsWith {text suffix : PyStr}
    (h : pyEndsWith (pyLower text) (pyLower suffix) = false) :
    strip_suffix_case_insensitive text suffix = text := by
  simp [strip_suffix_case_insensitive, h]

/-- Claim C8: within a season block's per-name group, an entry still
Unspecified is dropped whenever the group also resolved a Men or Women
entry, and every entry (Unspecified included) is emitted when no Men or
Women sibling exists. A season with "Soccer - Men" and "Soccer - Women"
yields exactly the two Sport records named "Soccer" (Men and Women); a
season with only unqualified "Football" yields exactly one Sport record
whose gender, Men, comes from the default table. -/
theorem C8_season_group_unspecified_rule (name : PyStr)
    (entries : List (Gender × Option PyStr)) (season : Season) :
    ((Gender.men ∈ entries.map Prod.fst ∨ Gender.women ∈ entries.map Prod.fst) →
      ∀ s ∈ create_sports_from_group name entries season, s.gender ≠ Gender.unspecified) ∧
    ((Gender.men ∉ entries.map Prod.fst ∧ Gender.women ∉ entries.map Prod.fst) →
      create_sports_from_group name entries season =
        entries.map fun (gender, url) =>
          { name := name, season := season, gender := gender, url := url }) ∧
    (parse_season_block [(pyStr "Soccer - Men", none), (pyStr "Soccer - Women", none)] .fall =
      [ { name := pyStr "Soccer", season := .fall, gender := .men, url := none }
      , { name := pyStr "Soccer", season := .fall, gender := .women, url := none } ]) ∧
    (parse_season_block [(pyStr "Football", none)] .fall =
      [ { name := pyStr "Football", season := .fall, gender := .men, url := none } ]) := by
  refine ⟨?_, ?_, by decide, by decide⟩
  · intro hsib s hs
    simp only [create_sports_from_group] at hs
    rcases List.mem_filterMap.mp hs with ⟨⟨g, u⟩, he, heq⟩
    by_cases hskip : should_skip_unspecified_entry g (entries.map Prod.fst) = true
    · simp [hskip] at heq
    · simp only [Bool.not_eq_true] at hskip
      simp [hskip] at heq
      subst heq
      intro hgen
      rw [Bool.eq_false_iff] at hskip
      exact hskip ((should_skip_iff g _).mpr ⟨hgen, hsib⟩)
  · intro h
    have hfalse : ∀ g, should_skip_unspecified_entry g (entries.map Prod.fst) = false := by
      intro g
      rw [Bool.eq_false_iff]
      intro htrue
      rcases (should_skip_iff g _).mp htrue with ⟨-, hmem | hmem⟩
      exacts [h.1 hmem, h.2 hmem]
    simpa [create_sports_from_group] using
      filterMap_skip_eq_map name season _ hfalse entries

/-- Claim C9: `extract_gender` returns Women exactly when the lowercased
text contains "women" (even if it also contains "men"), Men exactly when it
contains "men" but not "women", and Unspecified exactly when it contains
neither; and for an inferred Men/Women gender, `normalize_sport_name`
strips the matching `" - Men"`/`" - Women"` suffix case-insensitively from
the end of the text (rstripping the cut point) and is the identity when the
suffix is not there. -/
theorem C9_extract_gender_normalize (raw : PyStr) :
    (extract_gender raw = Gender.women ↔ pyStr "women" <:+: pyLower raw) ∧
    (extract_gender raw = Gender.men ↔
      (pyStr "men" <:+: pyLower raw ∧ ¬ pyStr "women" <:+: pyLower raw)) ∧
    (extract_gender raw = Gender.unspecified ↔
      (¬ pyStr "men" <:+: pyLower raw ∧ ¬ pyStr "women" <:+: pyLower raw)) ∧
    (∀ gender, gender = Gender.men ∨ gender = Gender.women →
      normalize_sport_name raw gender =
        if pyEndsWith (pyLower raw) (pyLower (pyStr " - " ++ gender.value)) = true then
          pyRstrip (raw.take (raw.length - (pyStr " - " ++ gender.value).length))
        else raw) := by
  refine ⟨?_, ?_, ?_, ?_⟩
  · by_cases hw : pyStr "women" <:+: pyLower raw <;>
      by_cases hm : pyStr "men" <:+: pyLower raw <;>
        simp [extract_gender, pyContains, hw, hm]
  · by_cases hw : pyStr "women" <:+: pyLower raw <;>
      by_cases hm : pyStr "men" <:+: pyLower raw <;>
        simp [extract_gender, pyContains, hw, hm]
  · by_cases hw : pyStr "women" <:+: pyLower raw <;>
      by_cases hm : pyStr "men" <:+: pyLower raw <;>
        simp [extract_gender, pyContains, hw, hm]
  · intro gender hg
    have hgne : gender ≠ Gender.unspecified := by
      rcases hg with rfl | rfl <;> decide
    have hsufne : pyStr " - " ++ gender.value ≠ [] := by
      rcases hg with rfl | rfl <;> decide
    simp only [normalize_sport_name, if_neg hgne]
    by_cases hcs : pyEndsWith raw (pyStr " - " ++ gender.value) = true
    · rw [if_neg (strip_suffix_ne hsufne hcs),
        strip_suffix_of_endsWith hcs,
        if_pos (pyEndsWith_pyLower hcs)]
    · have hcs' : pyEndsWith raw (pyStr " - " ++ gender.value) = false :=
        Bool.eq_false_iff.mpr hcs
      rw [if_pos (strip_suffix_of_not_endsWith hcs')]
      by_cases hci : pyEndsWith (pyLower raw) (pyLower (pyStr " - " ++ gender.value)) = true
      · rw [strip_ci_of_endsWith hsufne hci, if_pos hci]
      · rw [strip_ci_of_not_endsWith (Bool.eq_false_iff.mpr hci), if_neg hci]

/-- Witness for C9 at a concrete input: "Diving  - WOMEN" with gender Women
has the suffix stripped case-insensitively, rstripping the extra space. -/
theorem C9_extract_gender_normalize_witness :
    normalize_sport_name (pyStr "Diving  - WOMEN") Gender.women = pyStr "Diving" := by
  have h := (C9_extract_gender_normalize (pyStr "Diving  - WOMEN")).2.2.2
    Gender.women (Or.inr rfl)
  rw [h]
  decide

/-- Witness for C8 at concrete inputs: a Coed + Unspecified group (no Men
or Women sibling) keeps both entries. -/
theorem C8_season_group_unspecified_witness :
    create_sports_from_group (pyStr "Skiing") [(Gender.coed, none), (Gender.unspecified, none)] .winter =
      [ { name := pyStr "Skiing", season := .winter, gender := .coed, url := none }
      , { name := pyStr "Skiing", season := .winter, gender := .unspecified, url := none } ] := by
  have h := (C8_season_group_unspecified_rule (pyStr "Skiing")
    [(Gender.coed, none), (Gender.unspecified, none)] .winter).2.1 (by decide)
  simpa using h

/-- Witness for C4 at concrete inputs: the Men text gender wins for
Basketball (first conjunct), and Softball's group lookup puts
`("softball", Women)` in the defaults table (second conjunct). -/
theorem C4_default_gender_resolver_witness :
    resolve (pyStr "Basketball") Gender.men = Gender.men ∧
    ((pyLower (pyStrip (pyStr "Softball")), resolve (pyStr "Softball") Gender.unspecified) ∈
        defaultGenderTable ∨
      (resolve (pyStr "Softball") Gender.unspecified = Gender.unspecified ∧
        ∀ gen, (pyLower (pyStrip (pyStr "Softball")), gen) ∉ defaultGenderTable)) :=
  ⟨(C4_default_gender_resolver (pyStr "Basketball") Gender.men).1 (by decide),
   (C4_default_gender_resolver (pyStr "Softball") Gender.unspecified).2.1 rfl⟩

end Ncaa
